import Mathlib

/-!
Verification development for the tabular query-planning engine and the
token-budgeted document-reduction pipeline of `app/tools/data_processing_tools.py`.

The Python code is shallowly embedded: pure functions become Lean functions on
`String` / `List`; machine floats used only as token estimates are modelled by
exact rationals (`1.3` becomes `13/10`); external collaborators (the Supabase
blob store, the DuckDB relational engine, `difflib.get_close_matches`, the
OpenAI summarization call, the `tiktoken` encoder) are passed in as oracle
parameters or modelled by their documented deterministic fallback paths.
Python `str` operations (`strip`, `lower`, `split`, slicing, `in`) are
re-implemented character-exactly for the ASCII inputs the tool handles, and the
handful of regular expressions used by the source are compiled by hand into
character-list scanners with the same backtracking semantics.
-/

/-! ## Python string primitives -/

/-- Python's whitespace set for `str.strip` / `str.split` (ASCII fragment). -/
def pyIsSpace (c : Char) : Bool :=
  c = ' ' || c = '\t' || c = '\n' || c = '\r' || c = '\x0b' || c = '\x0c'

/-- Python regex `\w` word character (ASCII fragment). -/
def isWordChar (c : Char) : Bool := c.isAlphanum || c = '_'

/-- An uppercase ASCII letter `[A-Z]`. -/
def isUpperAZ (c : Char) : Bool := 'A' ≤ c && c ≤ 'Z'

/-- Sentence-final punctuation `[.!?]` of the sentence-splitting regex. -/
def isSentPunct (c : Char) : Bool := c = '.' || c = '!' || c = '?'

/-- ASCII lower-casing of one character, as Python `str.lower` does on ASCII. -/
def pyCharLower (c : Char) : Char :=
  if isUpperAZ c then Char.ofNat (c.toNat + 32) else c

/-- ASCII upper-casing of one character, as Python `str.upper` does on ASCII. -/
def pyCharUpper (c : Char) : Char :=
  if 'a' ≤ c && c ≤ 'z' then Char.ofNat (c.toNat - 32) else c

/-- Python `str.lower` (ASCII fragment). -/
def pyLower (s : String) : String := String.mk (s.data.map pyCharLower)

/-- Python `str.upper` (ASCII fragment). -/
def pyUpper (s : String) : String := String.mk (s.data.map pyCharUpper)

/-- Strip leading and trailing Python whitespace from a character list. -/
def stripChars (l : List Char) : List Char :=
  ((l.dropWhile pyIsSpace).reverse.dropWhile pyIsSpace).reverse

/-- Python `str.strip()`. -/
def pyStrip (s : String) : String := String.mk (stripChars s.data)

/-- Does `n` occur as a contiguous segment of `h`? -/
def listInfix [BEq α] (n : List α) : List α → Bool
  | [] => n.isPrefixOf []
  | h@(_ :: t) => n.isPrefixOf h || listInfix n t

/-- Python substring containment `needle in hay`. -/
def substrIn (needle hay : String) : Bool := listInfix needle.data hay.data

/-- Python slice `s[:n]`. -/
def pySlice (s : String) (n : Nat) : String := String.mk (s.data.take n)

/-- Word-count automaton for Python `len(text.split())`: `inWord` records
whether the previous character was a non-space. -/
def wcAux : Bool → List Char → Nat
  | _, [] => 0
  | inWord, c :: cs =>
    if pyIsSpace c then wcAux false cs
    else (if inWord then 0 else 1) + wcAux true cs

/-- `len(text.split())`: the number of maximal non-whitespace runs. -/
def wc (s : String) : Nat := wcAux false s.data

/-- `count_tokens` of the source, in fixed-point **tenths of a token**.  The
`tiktoken` encoder is an external collaborator that is unavailable in the
modelled environment, so this is the source's deterministic fallback path
`len(text.split()) * 1.3`.  To stay in kernel-computable integers the model
scales all token counts by 10: the source's value is `count_tokens text / 10`
(so `n` words count as `13 * n` tenths), and every token threshold `T` of the
source appears as `10 * T` here; the scaling preserves every comparison the
source performs.  Python returns the product as a `float`; the model keeps the
exact value.  The `model` argument of the source only selects the (external)
encoder and is unused on the fallback path. -/
def count_tokens (text : String) (model : String := "gpt-3.5-turbo") : Nat :=
  wc text * 13

/-! ## Column matcher (`find_best_column_match`) -/

/-- The `common_patterns` category keyword table of `find_best_column_match`,
in its insertion (= iteration) order. -/
def common_patterns : List (List String) :=
  [["company", "empresa", "corporation", "corp", "manufacturer", "applicant"],
   ["product", "medicamento", "drug", "medicine", "brand", "trademark"],
   ["country", "pais", "nation", "location"],
   ["approval", "approved", "authorization", "permit", "license"],
   ["date", "fecha", "time", "year", "month"],
   ["status", "estado", "state", "condition"]]

/-- The category-fallback tail of `find_best_column_match`: classify the target
into the first keyword category it mentions, then return the first column
mentioning any keyword of that category. -/
def fbcm_fallback (target_lower : String) (cols : List String) : Option String :=
  match common_patterns.find? (fun pat => pat.any (fun kw => substrIn kw target_lower)) with
  | some pat => cols.find? (fun col => pat.any (fun kw => substrIn kw (pyLower col)))
  | none => none

/-- `find_best_column_match`.  `fz` is the oracle for the external
`difflib.get_close_matches(target, cols, n=1, cutoff=threshold)` call (it
receives the lowered target, the lowered column list and the threshold and
returns the best close match, if any). -/
def find_best_column_match (fz : String → List String → ℚ → Option String)
    (target : String) (available_columns : List String) (threshold : ℚ := 6/10) :
    Option String :=
  let target_lower := pyStrip (pyLower target)
  match available_columns.find? (fun col => pyStrip (pyLower col) == target_lower) with
  | some col => some col
  | none =>
    match fz target_lower (available_columns.map pyLower) threshold with
    | some m =>
      match available_columns.find? (fun col => pyLower col == m) with
      | some col => some col
      | none => fbcm_fallback target_lower available_columns
    | none => fbcm_fallback target_lower available_columns

/-! ## Schema analyzer (`analyze_csv_schema`): column categorization -/

/-- The seven `key_columns` category buckets of `CSVSchemaInfo`. -/
inductive ColCategory
  | company | product | country | approval | date | status | other
deriving DecidableEq, Repr

/-- All categories, in the order the source initializes the buckets. -/
def allCategories : List ColCategory :=
  [.company, .product, .country, .approval, .date, .status, .other]

/-- The `if`/`elif` categorization chain of `analyze_csv_schema`, applied to one
column name; `dt` maps a column to its coarse data type string (computed by the
source from the external pandas dtype). -/
def categorize_column (dt : String → String) (col : String) : ColCategory :=
  let cl := pyLower col
  if ["company", "empresa", "corporation", "manufacturer", "applicant"].any
      (fun k => substrIn k cl) then .company
  else if ["product", "medicamento", "drug", "medicine", "brand", "trademark"].any
      (fun k => substrIn k cl) then .product
  else if ["country", "pais", "nation", "location"].any (fun k => substrIn k cl) then .country
  else if ["approval", "approved", "authorization", "permit", "license"].any
      (fun k => substrIn k cl) then .approval
  else if (["date", "fecha", "time", "year", "month"].any (fun k => substrIn k cl))
      || dt col == "datetime" then .date
  else if ["status", "estado", "state", "condition"].any (fun k => substrIn k cl) then .status
  else .other

/-- The `key_columns` dictionary of `CSVSchemaInfo`. -/
structure KeyColumns where
  company : List String
  product : List String
  country : List String
  approval : List String
  date : List String
  status : List String
  other : List String
deriving Repr, DecidableEq

/-- Bucket lookup, `key_columns[category]`. -/
def KeyColumns.get (kc : KeyColumns) : ColCategory → List String
  | .company => kc.company
  | .product => kc.product
  | .country => kc.country
  | .approval => kc.approval
  | .date => kc.date
  | .status => kc.status
  | .other => kc.other

/-- Append a column to the bucket of one category. -/
def KeyColumns.push (kc : KeyColumns) (cat : ColCategory) (col : String) : KeyColumns :=
  match cat with
  | .company => { kc with company := kc.company ++ [col] }
  | .product => { kc with product := kc.product ++ [col] }
  | .country => { kc with country := kc.country ++ [col] }
  | .approval => { kc with approval := kc.approval ++ [col] }
  | .date => { kc with date := kc.date ++ [col] }
  | .status => { kc with status := kc.status ++ [col] }
  | .other => { kc with other := kc.other ++ [col] }

/-- The empty bucket dictionary the source starts from. -/
def KeyColumns.empty : KeyColumns := ⟨[], [], [], [], [], [], []⟩

/-- The column-categorization loop of `analyze_csv_schema`: every column is
appended to the bucket of its (first-matching) category, `other` catching the
uncategorized ones. -/
def analyze_key_columns (dt : String → String) (cols : List String) : KeyColumns :=
  cols.foldl (fun kc col => kc.push (categorize_column dt col) col) KeyColumns.empty

/-- `CSVSchemaInfo`: the dataclass produced by `analyze_csv_schema`.
`data_types` and `sample_values` are total maps (the source uses dictionaries
keyed by the columns); their values for non-columns are irrelevant. -/
structure CSVSchemaInfo where
  columns : List String
  data_types : String → String
  sample_values : String → List String
  row_count : Nat
  key_columns : KeyColumns

/-! ## Query planner (`create_query_plan`) -/

/-- One entry of `QueryPlan.steps`: the `description` / `sql` / `validation`
dictionary the planner emits. -/
structure PlanStep where
  description : String
  sql : String
  validation : String
deriving DecidableEq, Repr

/-- `QueryPlan`: the dataclass returned by `create_query_plan`. -/
structure QueryPlan where
  objective : String
  steps : List PlanStep
  expected_result_type : String
deriving Repr

/-- Group the maximal runs of `\w` word characters of a character list
(`cur` accumulates the current run in reverse). -/
def wordRunsGo : List Char → List Char → List (List Char)
  | cur, [] => if cur.isEmpty then [] else [cur.reverse]
  | cur, c :: cs =>
    if isWordChar c then wordRunsGo (c :: cur) cs
    else (if cur.isEmpty then [] else [cur.reverse]) ++ wordRunsGo [] cs

/-- `re.findall(r'\b\w+\b', s)`: all maximal word-character runs. -/
def wordRuns (s : String) : List String := (wordRunsGo [] s.data).map String.mk

/-- `re.findall(r'\b[A-Z][A-Z0-9]+\b', s)`: because `\b` boundaries only occur
at the ends of maximal word runs, these are exactly the maximal word runs of
length ≥ 2 that start with an uppercase letter and continue with uppercase
letters or digits. -/
def uppercase_tokens (s : String) : List String :=
  (wordRunsGo [] s.data).filterMap (fun r =>
    match r with
    | c :: rest =>
      if isUpperAZ c && !rest.isEmpty
          && rest.all (fun d => isUpperAZ d || d.isDigit) then
        some (String.mk r)
      else none
    | [] => none)

/-- The `brand_name_col` / `generic_name_col` detection loop of the planner:
scan all columns; a column whose lowered name contains both `brand` and `name`
overwrites the brand slot, else one containing both `generic` and `name`
overwrites the generic slot (the last hit wins, as in the Python loop). -/
def findBrandGeneric (cols : List String) : Option String × Option String :=
  cols.foldl (fun (bg : Option String × Option String) col =>
    let cl := pyLower col
    if substrIn "brand" cl && substrIn "name" cl then (some col, bg.2)
    else if substrIn "generic" cl && substrIn "name" cl then (bg.1, some col)
    else bg) (none, none)

/-- The per-column `LIKE` conditions of planner step 4: one condition for the
brand-name column and one for the generic-name column, when present. -/
def where_conditions (cols : List String) (p : String) : List String :=
  let bg := findBrandGeneric cols
  (match bg.1 with
   | some bc => ["UPPER(\"" ++ bc ++ "\") LIKE \'%" ++ pyUpper p ++ "%\'"]
   | none => []) ++
  (match bg.2 with
   | some gc => ["UPPER(\"" ++ gc ++ "\") LIKE \'%" ++ pyUpper p ++ "%\'"]
   | none => [])

/-- Planner step 1: the structure-discovery step, added when the objective
mentions counting/enumeration vocabulary. -/
def plan_step1 (ol : String) : List PlanStep :=
  if ["how many", "count", "companies", "products"].any (fun w => substrIn w ol) then
    [⟨"Explore CSV structure and columns",
      "SELECT column_name FROM information_schema.columns WHERE table_name = \'current_csv_table\'",
      "Should return list of column names"⟩]
  else []

/-- Planner step 2: the exploratory distinct-companies step. -/
def plan_step2 (ol : String) (schema : CSVSchemaInfo) : List PlanStep :=
  if substrIn "company" ol || substrIn "companies" ol then
    match schema.key_columns.company with
    | [] => []
    | main_company_col :: _ =>
      [⟨"Explore company data in column \'" ++ main_company_col ++ "\'",
        "SELECT DISTINCT \"" ++ main_company_col ++ "\" FROM current_csv_table LIMIT 10",
        "Should return list of company names"⟩]
  else []

/-- Planner step 3: entity search against the brand-name column, the
generic-name column, and the first product column as a fallback. -/
def plan_step3 (objective : String) (schema : CSVSchemaInfo) : List PlanStep :=
  match uppercase_tokens objective with
  | [] => []
  | p :: _ =>
    match schema.key_columns.product with
    | [] => []
    | main_product_col :: _ =>
      let bg := findBrandGeneric schema.columns
      (match bg.1 with
       | some bc =>
         [⟨"Search for product \'" ++ p ++ "\' in Brand Name column \'" ++ bc ++ "\'",
           "SELECT * FROM current_csv_table WHERE UPPER(\"" ++ bc ++ "\") LIKE \'%"
             ++ pyUpper p ++ "%\' LIMIT 5",
           "Should return rows with brand name \'" ++ p ++ "\'"⟩]
       | none => []) ++
      (match bg.2 with
       | some gc =>
         [⟨"Search for product \'" ++ p ++ "\' in Generic Name column \'" ++ gc ++ "\'",
           "SELECT * FROM current_csv_table WHERE UPPER(\"" ++ gc ++ "\") LIKE \'%"
             ++ pyUpper p ++ "%\' LIMIT 5",
           "Should return rows with generic name \'" ++ p ++ "\'"⟩]
       | none => []) ++
      (match bg.1, bg.2 with
       | none, none =>
         [⟨"Search for product \'" ++ p ++ "\' in column \'" ++ main_product_col ++ "\'",
           "SELECT * FROM current_csv_table WHERE UPPER(\"" ++ main_product_col
             ++ "\") LIKE \'%" ++ pyUpper p ++ "%\' LIMIT 5",
           "Should return rows containing \'" ++ p ++ "\'"⟩]
       | _, _ => [])

/-- Planner step 4: the combined OR-across-columns counting step and the
companion listing step for "how many companies" objectives with an entity. -/
def plan_step4 (ol objective : String) (schema : CSVSchemaInfo) : List PlanStep :=
  if substrIn "how many companies" ol then
    match uppercase_tokens objective with
    | [] => []
    | p :: _ =>
      match schema.key_columns.company with
      | [] => []
      | main_company_col :: _ =>
        match where_conditions schema.columns p with
        | [] => []
        | conds =>
          let combined_where := String.intercalate " OR " conds
          [⟨"Count distinct companies that have registered " ++ p
              ++ " (checking multiple columns)",
            "SELECT COUNT(DISTINCT \"" ++ main_company_col
              ++ "\") as company_count FROM current_csv_table WHERE " ++ combined_where,
            "Should return count of companies with " ++ p⟩,
           ⟨"List companies that have registered " ++ p ++ " (from all relevant columns)",
            "SELECT DISTINCT \"" ++ main_company_col
              ++ "\" as company_name FROM current_csv_table WHERE " ++ combined_where,
            "Should return names of companies with " ++ p⟩]
  else []

/-- The `expected_result_type` classification at the end of the planner. -/
def expected_result_type_of (ol : String) : String :=
  if substrIn "how many" ol || substrIn "count" ol then "numeric_count_with_details"
  else if substrIn "list" ol || substrIn "what are" ol then "list_of_items"
  else "general_information"

/-- `create_query_plan`: heuristic, rule-based step synthesis from the
objective and the schema. -/
def create_query_plan (objective : String) (schema_info : CSVSchemaInfo) : QueryPlan :=
  let ol := pyLower objective
  { objective := objective
    steps := plan_step1 ol ++ plan_step2 ol schema_info
      ++ plan_step3 objective schema_info ++ plan_step4 ol objective schema_info
    expected_result_type := expected_result_type_of ol }

/-! ## Result validation (`validate_query_result`) -/

/-- A scalar cell value of a result row, as produced by the relational engine
and rendered by Python (`str` for f-string interpolation, `repr` inside a
dict's `str()`). -/
inductive PyVal
  | int (n : ℤ)
  | str (s : String)
deriving DecidableEq, Repr

/-- A result row: one record dictionary of `result_df.to_dict(orient='records')`,
as a key/value association list in column order. -/
abbrev Row := List (String × PyVal)

/-- Python `str(v)` of a scalar. -/
def pyValStr : PyVal → String
  | .int n => toString n
  | .str s => s

/-- Python `repr(v)` of a scalar (strings get quotes). -/
def pyValRepr : PyVal → String
  | .int n => toString n
  | .str s => "\'" ++ s ++ "\'"

/-- Python `str(d)` of a record dictionary. -/
def rowRepr (r : Row) : String :=
  "\x7b" ++ String.intercalate ", "
    (r.map (fun kv => "\'" ++ kv.1 ++ "\': " ++ pyValRepr kv.2)) ++ "\x7d"

/-- The `result` payload stored in a step result.  The source stores a string:
`'[]'` or `json.dumps(records)` on success (both start with `[` and round-trip
through `json.loads` to the record list), or an `"Error: ..."` text on failure
(which does not start with `[` or `{`).  The two serialized shapes are kept as
the two constructors. -/
inductive StepPayload
  | rows (rs : List Row)
  | errText (s : String)
deriving DecidableEq, Repr

/-- `validate_query_result`.  On the `rows` payload the JSON parse of the
source always succeeds, so the `except` branch of the source is unreachable;
on `errText` the string starts with `Error:`, not `[`/`{`, taking the
non-JSON branch of the source. -/
def validate_query_result (step_description : String) (result : StepPayload)
    (expected_validation : String) : Bool × String :=
  match result with
  | .rows rs =>
    if rs.isEmpty then
      (false, "Query returned empty result for: " ++ step_description)
    else if substrIn "count" (pyLower expected_validation) then
      (if rs.length = 1
          && (match rs with
              | r :: _ => r.any (fun kv => substrIn "count" (pyLower kv.1))
              | [] => false) then
        (true, "Count query successful")
      else
        (false, "Expected count result, got: <class \'list\'>"))
    else if substrIn "list" (pyLower expected_validation) then
      (if rs.length > 0 then
        (true, "List query returned " ++ toString rs.length ++ " items")
      else (false, "Expected non-empty list result"))
    else (true, "Query executed successfully")
  | .errText s =>
    if substrIn "error" (pyLower s) then (false, "Query failed: " ++ s)
    else if !(pyStrip s).isEmpty then (true, "Query returned data")
    else (false, "Query returned empty result")

/-! ## Plan executor (`execute_query_plan`) -/

/-- One entry of `steps_executed`. -/
structure StepResult where
  step_number : Nat
  description : String
  sql : String
  result : StepPayload
  success : Bool
  validation_passed : Bool
  feedback : String
deriving Repr

/-- The `results` dictionary returned by `execute_query_plan`
(the `ExecutionReport` of the specification). -/
structure ExecReport where
  objective : String
  steps_executed : List StepResult
  final_answer : String
  success : Bool
  errors : List String
  warnings : List String
deriving Repr

/-- `re.search(r'"([^"]+)"', s)`: the first non-empty run of non-quote
characters enclosed in double quotes. -/
def firstQuotedGo : List Char → Option (List Char)
  | [] => none
  | c :: cs =>
    if c = '"' then
      let body := cs.takeWhile (fun d => d ≠ '"')
      if !body.isEmpty && body.length < cs.length then some body
      else firstQuotedGo cs
    else firstQuotedGo cs

/-- The quoted-identifier extraction of the executor's error recovery. -/
def firstQuoted (s : String) : Option String := (firstQuotedGo s.data).map String.mk

/-- Execute one plan step: run the query through the relational-engine oracle
`exec`, validate on success, or record the error (with a best-effort column
suggestion) on failure.  Returns the step result and its contributions to the
report's `errors` and `warnings` lists.  `i` is the 0-based loop index,
`cols` the dataframe's column list, `fz` the `difflib` oracle. -/
def run_step (exec : String → Except String (List Row))
    (fz : String → List String → ℚ → Option String) (cols : List String)
    (i : Nat) (step : PlanStep) : StepResult × List String × List String :=
  match exec step.sql with
  | .ok rs =>
    let payload := StepPayload.rows rs
    let vr := validate_query_result step.description payload step.validation
    (⟨i + 1, step.description, step.sql, payload, true, vr.1, vr.2⟩,
     [],
     if vr.1 then []
     else ["Step " ++ toString (i + 1) ++ " validation failed: " ++ vr.2])
  | .error e =>
    let warns :=
      if substrIn "column" (pyLower e) && substrIn "not found" (pyLower e) then
        match firstQuoted e with
        | some col_name =>
          match find_best_column_match fz col_name cols with
          | some suggested =>
            ["Column \'" ++ col_name ++ "\' not found. Did you mean \'"
              ++ suggested ++ "\'?"]
          | none => []
        | none => []
      else []
    (⟨i + 1, step.description, step.sql, .errText ("Error: " ++ e), false, false,
      "SQL execution failed: " ++ e⟩,
     ["Step " ++ toString (i + 1) ++ " failed: " ++ e],
     warns)

/-- The step loop of `execute_query_plan`: every step is executed in order,
regardless of earlier failures. -/
def run_steps (exec : String → Except String (List Row))
    (fz : String → List String → ℚ → Option String) (cols : List String) :
    Nat → List PlanStep → List StepResult × List String × List String
  | _, [] => ([], [], [])
  | i, step :: rest =>
    let r := run_step exec fz cols i step
    let rs := run_steps exec fz cols (i + 1) rest
    (r.1 :: rs.1, r.2.1 ++ rs.2.1, r.2.2 ++ rs.2.2)

/-- The first value of a record, `list(d.values())[0]`.  The `[]` case is
unreachable at its call sites (the guard there requires `'count'` to occur in
the dict's `str()`, which for the empty dict is `"{}"`). -/
def firstValD : Row → PyVal
  | [] => .str ""
  | (_, v) :: _ => v

/-- Render one successful step's findings (the body of the answer-synthesis
loop): a bold count line for single count-like rows, else a bulleted list of
the first column's values capped at 10. -/
def renderStepResult (sr : StepResult) : List String :=
  ["**" ++ sr.description ++ ":**"] ++
  (match sr.result with
   | .errText s => ["- " ++ s ++ "\n"]
   | .rows rs =>
     (match rs with
      | [] => []
      | r0 :: _ =>
        if rs.length = 1 && substrIn "count" (pyLower (rowRepr r0)) then
          ["- Count: **" ++ pyValStr (firstValD r0) ++ "**"]
        else
          ["- Found " ++ toString rs.length ++ " records:"] ++
          (rs.take 10).map (fun r => "  - " ++
            (match r with
             | [] => rowRepr r
             | (_, v) :: _ => pyValStr v)) ++
          (if rs.length > 10 then
            ["  - ... and " ++ toString (rs.length - 10) ++ " more"]
          else [])) ++ [""])

/-- The answer-synthesis tail of `execute_query_plan` (lines building
`final_answer`). -/
def build_final_answer (objective : String) (step_results : List StepResult)
    (errors warnings : List String) : String :=
  let successful := step_results.filter (fun s => s.success && s.validation_passed)
  let parts0 := ["## Analysis Results for: " ++ objective ++ "\n"]
  let parts1 :=
    if successful.isEmpty then []
    else "### Key Findings:\n" :: (successful.map renderStepResult).flatten
  let parts2 :=
    if substrIn "how many" (pyLower objective) then
      match successful.filter (fun s => substrIn "count" (pyLower s.description)) with
      | [] => []
      | st :: _ =>
        match st.result with
        | .rows (r0 :: _) =>
          match r0 with
          | (_, v) :: _ => ["### Final Answer: **" ++ pyValStr v ++ "** companies"]
          | [] => []
        | _ => []
    else []
  let parts3 :=
    if errors.isEmpty then []
    else ("### Issues Encountered:" :: errors.map (fun e => "- ❌ " ++ e)) ++ [""]
  let parts4 :=
    if warnings.isEmpty then []
    else "### Warnings:" :: warnings.map (fun w => "- ⚠️ " ++ w)
  String.intercalate "\n" (parts0 ++ parts1 ++ parts2 ++ parts3 ++ parts4)

/-- `execute_query_plan`.  The setup phase crosses process boundaries, so it is
parametrized: `download_ok` is whether the blob download returned bytes,
`read_csv` is the outcome of loading them into a dataframe (`.ok` carries the
column list), and `exec` is the relational-engine oracle for `con.execute`.
Setup failure aborts with `success := false`; after successful setup `success`
is never cleared by step failures. -/
def execute_query_plan (file_id : String) (download_ok : Bool)
    (read_csv : Except String (List String))
    (exec : String → Except String (List Row))
    (fz : String → List String → ℚ → Option String)
    (query_plan : QueryPlan) : ExecReport :=
  if download_ok then
    match read_csv with
    | .error e =>
      { objective := query_plan.objective, steps_executed := [],
        final_answer := "Error: Could not execute analysis - " ++ e,
        success := false,
        errors := ["Critical error in query plan execution: " ++ e], warnings := [] }
    | .ok cols =>
      let r := run_steps exec fz cols 0 query_plan.steps
      { objective := query_plan.objective, steps_executed := r.1,
        final_answer := build_final_answer query_plan.objective r.1 r.2.1 r.2.2,
        success := true, errors := r.2.1, warnings := r.2.2 }
  else
    { objective := query_plan.objective, steps_executed := [], final_answer := "",
      success := false,
      errors := ["Could not download CSV file \'" ++ file_id ++ "\'"], warnings := [] }

/-! ## Structural chunker (`chunk_text_intelligently`): the three splitters -/

/-- Streaming scanner for `re.split(r'(?<=[.!?])\s+', para)`: a split fires at
a whitespace character whose predecessor is sentence punctuation and consumes
the maximal whitespace run (`skipping` state); `prev` is the previous character
(`' '` at the start, where the lookbehind cannot match). -/
def sentGo : Bool → Char → List Char → List Char → List (List Char)
  | _, _, acc, [] => [acc.reverse]
  | false, prev, acc, c :: cs =>
    if pyIsSpace c && isSentPunct prev then acc.reverse :: sentGo true ' ' [] cs
    else sentGo false c (c :: acc) cs
  | true, _, acc, c :: cs =>
    if pyIsSpace c then sentGo true ' ' acc cs
    else sentGo false c (c :: acc) cs

/-- `re.split(r'(?<=[.!?])\s+', para)`: sentence-boundary split. -/
def pySentSplit (s : String) : List String := (sentGo false ' ' [] s.data).map String.mk

/-- Non-overlapping leftmost split on a literal separator `s0 :: srest`,
Python `str.split(sep)` (fuel-free: structural on the scanned list is not
possible because a match drops `srest.length` extra characters, so the fuel is
the list length, always sufficient). -/
def pySplitOnGo (s0 : Char) (srest : List Char) :
    Nat → List Char → List Char → List (List Char)
  | 0, acc, l => [acc.reverse ++ l]
  | _ + 1, acc, [] => [acc.reverse]
  | fuel + 1, acc, c :: cs =>
    if (s0 :: srest).isPrefixOf (c :: cs) then
      acc.reverse :: pySplitOnGo s0 srest fuel [] (cs.drop srest.length)
    else pySplitOnGo s0 srest fuel (c :: acc) cs

/-- Python `s.split(sep)` for a non-empty literal separator. -/
def pySplitOn (s sep : String) : List String :=
  match sep.data with
  | [] => [s]
  | s0 :: srest => (pySplitOnGo s0 srest (s.data.length + 1) [] s.data).map String.mk

/-- Characters matched by the regex class `[A-Z\s]`. -/
def classAZs (c : Char) : Bool := isUpperAZ c || pyIsSpace c

/-- Match one of the keyword section patterns `\n\s*KW\s+\w+` (with `\d+`
instead of `\w+` for `Rule`) against the characters `after` following the
newline; returns the number of characters consumed after the newline.  The
greedy `\s*`/`\s+`/`\w+` pieces never need backtracking because the classes
are disjoint from what follows them. -/
def matchKwPat (kw : List Char) (digitsOnly : Bool) (after : List Char) : Option Nat :=
  let ws1 := (after.takeWhile pyIsSpace).length
  let r1 := after.drop ws1
  if kw.isPrefixOf r1 then
    let r2 := r1.drop kw.length
    let ws2 := (r2.takeWhile pyIsSpace).length
    if ws2 ≥ 1 then
      let r3 := r2.drop ws2
      let w := (r3.takeWhile (fun c => if digitsOnly then c.isDigit else isWordChar c)).length
      if w ≥ 1 then some (ws1 + kw.length + ws2 + w) else none
    else none
  else none

/-- Match `\n\s*[A-Z\s]{10,}\n` after the newline: backtrack the greedy `\s*`
from its maximal run down, and for each start backtrack the greedy `{10,}`
run down to 10 until the next character is a newline (Python's preference
order). -/
def matchHeaderPat (after : List Char) : Option Nat :=
  let m := (after.takeWhile pyIsSpace).length
  ((List.range (m + 1)).reverse).findSome? fun k =>
    let p := after.drop k
    let r := (p.takeWhile classAZs).length
    if r ≥ 10 then
      ((List.range (r + 1)).reverse).findSome? fun len =>
        if len ≥ 10 then
          match (p.drop len).head? with
          | some c => if c = '\n' then some (k + len + 1) else none
          | none => none
        else none
    else none

/-- Try the five section patterns of `chunk_text_intelligently` in alternation
order at a newline; `cs` is the text after the newline.  Returns the characters
consumed after the newline. -/
def sectionMatchAfterNl (c : Char) (cs : List Char) : Option Nat :=
  if c = '\n' then
    match matchKwPat "FORM".data false cs with
    | some n => some n
    | none =>
      match matchKwPat "Chapter".data false cs with
      | some n => some n
      | none =>
        match matchKwPat "Rule".data true cs with
        | some n => some n
        | none =>
          match matchKwPat "SCHEDULE".data false cs with
          | some n => some n
          | none => matchHeaderPat cs
  else none

/-- The consuming `re.split('|'.join(section_patterns), text)` scanner: matched
separators (the section headers themselves) are removed from the output. -/
def reSplitSecGo : Nat → List Char → List Char → List (List Char)
  | 0, acc, l => [acc.reverse ++ l]
  | _ + 1, acc, [] => [acc.reverse]
  | fuel + 1, acc, c :: cs =>
    match sectionMatchAfterNl c cs with
    | some n => acc.reverse :: reSplitSecGo fuel [] (cs.drop n)
    | none => reSplitSecGo fuel (c :: acc) cs

/-- The section split of `chunk_text_intelligently`. -/
def pySectionSplit (s : String) : List String :=
  (reSplitSecGo (s.data.length + 1) [] s.data).map String.mk

/-! ## Structural chunker: the accumulate/seal loops -/

/-- The chunker's loop state: sealed chunks, the current chunk text, and the
running token total of the units accumulated into it. -/
structure ChunkSt where
  chunks : List String
  cur : String
  curTok : Nat

/-- Seal the current chunk (`chunks.append(current_chunk.strip())` guarded by
`if current_chunk.strip():`). -/
def sealChunks (st : ChunkSt) : List String :=
  if pyStrip st.cur = "" then st.chunks else st.chunks ++ [pyStrip st.cur]

/-- `current_chunk += sep + u if current_chunk else u`. -/
def appendUnit (sep cur u : String) : String :=
  if cur = "" then u else cur ++ sep ++ u

/-- The sentence-level accumulate/seal step of the chunker. -/
def sentStep (maxTok : Nat) (st : ChunkSt) (sentence : String) : ChunkSt :=
  let t := count_tokens sentence
  if st.curTok + t ≤ 10 * maxTok then
    ⟨st.chunks, appendUnit " " st.cur sentence, st.curTok + t⟩
  else
    ⟨sealChunks st, sentence, t⟩

/-- The paragraph-level step: accumulate a fitting paragraph, else seal and
either recurse into sentences (oversized paragraph) or restart from the
paragraph. -/
def paraStep (maxTok : Nat) (st : ChunkSt) (para : String) : ChunkSt :=
  let t := count_tokens para
  if st.curTok + t ≤ 10 * maxTok then
    ⟨st.chunks, appendUnit "\n\n" st.cur para, st.curTok + t⟩
  else if t > 10 * maxTok then
    (pySentSplit para).foldl (sentStep maxTok) ⟨sealChunks st, "", 0⟩
  else
    ⟨sealChunks st, para, t⟩

/-- The section-level step: empty (post-strip) sections are skipped; a fitting
section is accumulated; an oversized one is split into `\n\n`-paragraphs. -/
def sectStep (maxTok : Nat) (st : ChunkSt) (sectionRaw : String) : ChunkSt :=
  let s := pyStrip sectionRaw
  if s = "" then st
  else
    let t := count_tokens s
    if st.curTok + t ≤ 10 * maxTok then
      ⟨st.chunks, appendUnit "\n\n" st.cur s, st.curTok + t⟩
    else if t > 10 * maxTok then
      (pySplitOn s "\n\n").foldl (paraStep maxTok) ⟨sealChunks st, "", 0⟩
    else
      ⟨sealChunks st, s, t⟩

/-- `chunk_text_intelligently`.  The `overlap_tokens` parameter is declared by
the source but never used by its algorithm. -/
def chunk_text_intelligently (text : String) (max_chunk_tokens : Nat := 3000)
    (overlap_tokens : Nat := 200) : List String :=
  sealChunks ((pySectionSplit text).foldl (sectStep max_chunk_tokens) ⟨[], "", 0⟩)

/-! ## Relevance filter (`extract_relevant_sections`) -/

/-- Lookahead test of `(?=FORM|Chapter|Rule|SCHEDULE|[A-Z\s]{10,})`. -/
def lookaheadOK (p : List Char) : Bool :=
  "FORM".data.isPrefixOf p || "Chapter".data.isPrefixOf p || "Rule".data.isPrefixOf p
    || "SCHEDULE".data.isPrefixOf p || (p.takeWhile classAZs).length ≥ 10

/-- Match `\n\s*(?=...)` at a newline (`cs` the text after it): the greedy
`\s*` backtracks from its maximal run to the longest prefix after which the
lookahead holds.  Returns the characters consumed after the newline. -/
def lookMatchAfterNl (c : Char) (cs : List Char) : Option Nat :=
  if c = '\n' then
    let m := (cs.takeWhile pyIsSpace).length
    ((List.range (m + 1)).reverse).findSome? fun k =>
      if lookaheadOK (cs.drop k) then some k else none
  else none

/-- The non-consuming `re.split(r'\n\s*(?=FORM|Chapter|Rule|SCHEDULE|[A-Z\s]{10,})', text)`
scanner of `extract_relevant_sections`: only the `\n\s*` is removed, the
header itself starts the next piece. -/
def reSplitLookGo : Nat → List Char → List Char → List (List Char)
  | 0, acc, l => [acc.reverse ++ l]
  | _ + 1, acc, [] => [acc.reverse]
  | fuel + 1, acc, c :: cs =>
    match lookMatchAfterNl c cs with
    | some k => acc.reverse :: reSplitLookGo fuel [] (cs.drop k)
    | none => reSplitLookGo fuel (c :: acc) cs

/-- The header-delimited section split of `extract_relevant_sections`. -/
def pyLookSplit (s : String) : List String :=
  (reSplitLookGo (s.data.length + 1) [] s.data).map String.mk

/-- The fixed regulatory vocabulary of the relevance filter. -/
def regulatory_keywords : List String :=
  ["clinical trial", "approval", "requirement", "timeline", "compliance",
   "safety", "regulation", "permission", "licence", "drug", "pharmaceutical"]

/-- `re.findall(r'\b\w+\b', query.lower())` filtered to words longer than 3. -/
def query_keywords (q : String) : List String :=
  (wordRuns (pyLower q)).filter (fun w => w.length > 3)

/-- Score one section: +1 per present query keyword, +5 for the literal query
phrase, +1 per present regulatory keyword. -/
def section_score (q : String) (kws : List String) (s : String) : Nat :=
  let sl := pyLower s
  (kws.filter (fun kw => substrIn kw sl)).length
    + (if substrIn (pyLower q) sl then 5 else 0)
    + (regulatory_keywords.filter (fun kw => substrIn kw sl)).length

/-- The scoring pass: sections shorter than 50 characters (after strip) are
skipped, and only strictly positive scores are kept. -/
def scored_sections (text q : String) : List (Nat × String) :=
  let kws := query_keywords q
  (pyLookSplit text).filterMap (fun s =>
    if (pyStrip s).length < 50 then none
    else
      let sc := section_score q kws s
      if sc > 0 then some (sc, s) else none)

/-- The greedy budgeted selection (8000-token ceiling) over the
descending-score-sorted sections; the loop `break`s at the first overflow. -/
def select_sections : List (Nat × String) → Nat → List String
  | [], _ => []
  | (_, s) :: rest, total =>
    let st := count_tokens s
    if total + st ≤ 80000 then s :: select_sections rest (total + st)
    else []

/-- Stable insertion (descending by score): an element is placed before the
first element whose score is not larger, so earlier elements stay before
later elements of equal score. -/
def orderedInsertDesc (x : Nat × String) : List (Nat × String) → List (Nat × String)
  | [] => [x]
  | y :: ys => if y.1 ≤ x.1 then x :: y :: ys else y :: orderedInsertDesc x ys

/-- Stable sort by descending score: the unique output of Python's stable
`list.sort(key=score, reverse=True)` (elements ordered by score descending,
ties in encounter order). -/
def sortDescStable : List (Nat × String) → List (Nat × String)
  | [] => []
  | x :: xs => orderedInsertDesc x (sortDescStable xs)

/-- The sections chosen by the relevance filter: scored, stably sorted by
descending score, then greedily accepted into the token budget. -/
def selected_sections (text q : String) : List String :=
  select_sections (sortDescStable (scored_sections text q)) 0

/-- `extract_relevant_sections`.  A falsy query (absent or empty) returns the
text unchanged; with no selected sections the source falls back to the
character slice `text[:8000]`. -/
def extract_relevant_sections (text : String) (query : Option String) : String :=
  match query with
  | none => text
  | some q =>
    if q = "" then text
    else
      let sel := selected_sections text q
      if sel.isEmpty then pySlice text 8000
      else String.intercalate "\n\n---\n\n" sel

/-! ## Chunk summarizer and document reduction (`summarize_text_chunk`, `read_pdf`) -/

/-- `summarize_text_chunk`, modelled on its deterministic fallback path (no
API key configured, or the external OpenAI call failed): truncate to 2000
characters with an ellipsis.  The LLM call itself is an external collaborator. -/
def summarize_text_chunk (text : String) (focus_query : Option String := none) : String :=
  if text.length > 2000 then pySlice text 2000 ++ "..." else text

/-- Rendering of a token-count number appearing inside a report string (the
source interpolates the `count_tokens` float; the model renders its fixed-point
tenths value, a cosmetic difference internal to the produced strings). -/
def pyNumStr (q : Nat) : String := toString q

/-- Steps 2–3 of the large-document path of `read_pdf`: chunk the text, 
summarize each chunk under a numbered section header, and prepend the
processing note.  `total_tokens` is the token count of the originally
extracted text. -/
def chunk_and_summarize (file_id : String) (total_tokens : Nat) (text : String)
    (query : Option String) : String :=
  let chunks := chunk_text_intelligently text 3000
  let summarized := chunks.enum.map (fun p =>
    "[SECTION " ++ toString (p.1 + 1) ++ "]\n" ++ summarize_text_chunk p.2 query)
  let final_result := "\n\n" ++ String.mk (List.replicate 50 '=')
    ++ String.intercalate "\n\n" summarized
  let final_tokens := count_tokens final_result
  "[PROCESSED LARGE PDF - Original: " ++ pyNumStr total_tokens ++ " tokens, Processed: "
    ++ pyNumStr final_tokens ++ " tokens from " ++ toString chunks.length
    ++ " sections of \'" ++ file_id ++ "\']\n\n" ++ final_result

/-- The processing stage of `read_pdf` after text extraction succeeded
(`full_text` is the joined page text; extraction, download and decryption are
external and reported separately by the source).  Small documents return
unmodified; large ones are filtered (only under a truthy query) and then
chunked and summarized. -/
def read_pdf_process (file_id : String) (full_text : String)
    (query : Option String) : String :=
  let total_tokens := count_tokens full_text
  if total_tokens ≤ 80000 then full_text
  else
    let queryTruthy : Bool := match query with | some q => q != "" | none => false
    if queryTruthy then
      let relevant_text := extract_relevant_sections full_text query
      let relevant_tokens := count_tokens relevant_text
      if relevant_tokens ≤ 80000 then
        "[FILTERED CONTENT - " ++ pyNumStr relevant_tokens ++ " tokens from "
          ++ pyNumStr total_tokens ++ " total]\n\n" ++ relevant_text
      else chunk_and_summarize file_id total_tokens relevant_text query
    else chunk_and_summarize file_id total_tokens full_text query

/-! ## Auxiliary notions for the verification -/

/-- Two adjacent characters that do not form a sentence-split point:
not (sentence punctuation followed by whitespace). -/
def NoM (a b : Char) : Prop := ¬(isSentPunct a = true ∧ pyIsSpace b = true)

/-- The invariant of the chunker's accumulate/seal loops: every sealed chunk
either respects the token budget or is a single (unsplittable) sentence; the
running total bounds the current chunk's token count and is nonnegative; and
the current chunk is itself within budget or an unsplittable sentence. -/
def ChunkInv (maxTok : Nat) (st : ChunkSt) : Prop :=
  (∀ c ∈ st.chunks, count_tokens c ≤ 10 * maxTok ∨ pySentSplit c = [c])
  ∧ count_tokens st.cur ≤ st.curTok
  ∧ (st.curTok ≤ 10 * maxTok ∨ pySentSplit (pyStrip st.cur) = [pyStrip st.cur])

/-- A 8005-character single-word text (more than 8000 characters, far fewer
than 8000 tokens). -/
def bigA : String := String.mk (List.replicate 8005 'a')

/-- `mkWords n`: a text of `n` single-letter words (`"a a a ... a "`). -/
def mkWords : Nat → String
  | 0 => ""
  | n + 1 => "a " ++ mkWords n

/-- A 6160-word text: its fallback token estimate `6160 * 1.3 = 8008` exceeds
the 8000-token ceiling of the document-reduction pipeline. -/
def bigDoc : String := mkWords 6160

/-! # Claim theorems -/

/-! ### Helper lemmas: buckets are the fibers of `categorize_column` -/

theorem keyColumns_push_get (kc : KeyColumns) (cat cat' : ColCategory) (col : String) :
    (kc.push cat col).get cat' =
      if cat' = cat then kc.get cat' ++ [col] else kc.get cat' := by
  cases cat <;> cases cat' <;> simp [KeyColumns.push, KeyColumns.get]

theorem analyze_key_columns_foldl_get (dt : String → String) (cols : List String)
    (kc : KeyColumns) (cat : ColCategory) :
    (cols.foldl (fun kc col => kc.push (categorize_column dt col) col) kc).get cat =
      kc.get cat ++ cols.filter (fun col => categorize_column dt col = cat) := by
  induction cols generalizing kc with
  | nil => simp
  | cons c cs ih =>
    simp only [List.foldl_cons, ih, List.filter_cons]
    rw [keyColumns_push_get]
    by_cases h : categorize_column dt c = cat
    · simp [h, List.append_assoc]
    · have h' : ¬ cat = categorize_column dt c := fun hh => h hh.symm
      simp [h, h']

theorem analyze_key_columns_get (dt : String → String) (cols : List String)
    (cat : ColCategory) :
    (analyze_key_columns dt cols).get cat =
      cols.filter (fun col => categorize_column dt col = cat) := by
  have h := analyze_key_columns_foldl_get dt cols KeyColumns.empty cat
  have he : KeyColumns.empty.get cat = [] := by cases cat <;> rfl
  simpa [analyze_key_columns, he] using h


/-- C7: `count_tokens` is deterministic (it is a pure function of its input in
this model), but on the word-count fallback path it does **not** return an
integer: on the two-word input `"hello world"` the source computes
`2 * 1.3 = 2.6`, a Python `float` (the function's `-> int` annotation
notwithstanding).  In the fixed-point model the value is `26` tenths, i.e.
`13/5` as a rational, which equals no integer. -/
theorem C7_count_tokens_fallback_not_integer :
    (count_tokens "hello world" : ℚ) / 10 = 13 / 5
    ∧ ∀ n : ℤ, (count_tokens "hello world" : ℚ) / 10 ≠ (n : ℚ) := by
  have hn : count_tokens "hello world" = 26 := by decide
  rw [hn]
  constructor
  · norm_num
  · intro n h
    have h2 : (2 : ℚ) < (n : ℚ) := by rw [← h]; norm_num
    have h3 : (n : ℚ) < 3 := by rw [← h]; norm_num
    have h2i : (2 : ℤ) < n := by exact_mod_cast h2
    have h3i : n < (3 : ℤ) := by exact_mod_cast h3
    omega

/-- C9: when the target case-insensitively (and ignoring surrounding
whitespace) equals some entry of the column list, `find_best_column_match`
returns an entry of the list equal to the target in that sense (the first
such entry), for every fuzzy-matching oracle and threshold: the exact-match
loop returns before the fuzzy stage is consulted. -/
theorem C9_exact_match_returns_entry
    (fz : String → List String → ℚ → Option String)
    (target : String) (cols : List String) (th : ℚ)
    (h : ∃ c ∈ cols, pyStrip (pyLower c) = pyStrip (pyLower target)) :
    match find_best_column_match fz target cols th with
    | some c => c ∈ cols ∧ pyStrip (pyLower c) = pyStrip (pyLower target)
    | none => False := by
  have hex : ∃ x, x ∈ cols ∧ (pyStrip (pyLower x) == pyStrip (pyLower target)) = true := by
    obtain ⟨c, hc, he⟩ := h
    exact ⟨c, hc, by simpa using he⟩
  have hsome : (cols.find? (fun col => pyStrip (pyLower col) == pyStrip (pyLower target))).isSome := by
    rw [List.find?_isSome]
    exact hex
  obtain ⟨c0, hc0⟩ := Option.isSome_iff_exists.mp hsome
  have hmem := List.mem_of_find?_eq_some hc0
  have hprop := List.find?_some hc0
  simp only [find_best_column_match, hc0]
  exact ⟨hmem, by simpa using hprop⟩

/-- C9 witness: at a concrete input (`"  COMPANY "` against
`["Company", "Product"]`, a trivial fuzzy oracle) the matcher returns an entry
that equals the target case-insensitively modulo whitespace. -/
theorem C9_witness :
    match find_best_column_match (fun _ _ _ => none) "  COMPANY " ["Company", "Product"] (6 / 10) with
    | some c => c ∈ ["Company", "Product"]
        ∧ pyStrip (pyLower c) = pyStrip (pyLower "  COMPANY ")
    | none => False :=
  C9_exact_match_returns_entry (fun _ _ _ => none) "  COMPANY " ["Company", "Product"] (6 / 10)
    ⟨"Company", by decide, by decide⟩

/-- C5 counterexample: a step whose validation hint mentions neither `count`
nor `list`, executed without exception but returning an empty result set
(the empty JSON array), **fails** validation: `validate_query_result` returns
`False` with the "empty result" feedback, contradicting the claim that all
such steps pass. -/
theorem C5_counterexample :
    validate_query_result "Explore CSV structure and columns" (.rows [])
      "Should return summary of rows"
    = (false, "Query returned empty result for: Explore CSV structure and columns") := by
  decide

/-- C5 (amended): for every step whose validation hint mentions neither
`count` nor `list`, if the step's query executed without exception then
`validate_query_result` passes it **provided the result set is non-empty**;
an empty result set — although represented as an empty JSON array rather than
an error — fails validation regardless of the hint. -/
theorem C5_no_hint_validation (desc hint : String) (rs : List Row)
    (hc : substrIn "count" (pyLower hint) = false)
    (hl : substrIn "list" (pyLower hint) = false)
    (hne : rs ≠ []) :
    (validate_query_result desc (.rows rs) hint).1 = true
    ∧ (validate_query_result desc (.rows []) hint).1 = false := by
  constructor
  · have : rs.isEmpty = false := by
      cases rs with
      | nil => exact absurd rfl hne
      | cons a as => rfl
    simp [validate_query_result, this, hc, hl]
  · simp [validate_query_result]

/-- C5 witness: a concrete hint-free non-empty step passes and the concrete
empty step fails. -/
theorem C5_witness :
    (validate_query_result "d" (.rows [[("a", .str "x")]]) "plain hint").1 = true
    ∧ (validate_query_result "d" (.rows []) "plain hint").1 = false :=
  C5_no_hint_validation "d" "plain hint" [[("a", PyVal.str "x")]]
    (by decide) (by decide) (by decide)

/-- C2: every column appears in exactly one category bucket of `key_columns`
(the number of buckets containing it is 1), and the bucket containing it is
the one selected by the priority-ordered categorization chain
company → product → country → approval → date (keyword or datetime dtype) →
status → other. -/
theorem C2_unique_category (dt : String → String) (cols : List String) (col : String)
    (h : col ∈ cols) :
    (allCategories.filter
        (fun cat => decide (col ∈ (analyze_key_columns dt cols).get cat))).length = 1
    ∧ col ∈ (analyze_key_columns dt cols).get (categorize_column dt col) := by
  have hbucket : ∀ cat, col ∈ (analyze_key_columns dt cols).get cat
      ↔ categorize_column dt col = cat := by
    intro cat
    rw [analyze_key_columns_get]
    simp only [List.mem_filter, decide_eq_true_eq]
    exact ⟨fun hx => hx.2, fun hx => ⟨h, hx⟩⟩
  constructor
  · have hcongr : (allCategories.filter
        (fun cat => decide (col ∈ (analyze_key_columns dt cols).get cat)))
        = allCategories.filter (fun cat => decide (categorize_column dt col = cat)) := by
      apply List.filter_congr
      intro cat _
      simp [hbucket cat]
    rw [hcongr]
    rcases h0 : categorize_column dt col <;> decide
  · exact (hbucket (categorize_column dt col)).mpr rfl

/-- C2 witness: in the concrete schema `["Company", "Approval Date", "Weird"]`
the uncategorized column `"Weird"` lands in exactly one bucket (the `other`
fallback). -/
theorem C2_witness :
    ((allCategories.filter
        (fun cat => decide ("Weird" ∈
          (analyze_key_columns (fun _ => "text")
            ["Company", "Approval Date", "Weird"]).get cat))).length = 1
    ∧ "Weird" ∈ (analyze_key_columns (fun _ => "text")
        ["Company", "Approval Date", "Weird"]).get
          (categorize_column (fun _ => "text") "Weird")) :=
  C2_unique_category (fun _ => "text") ["Company", "Approval Date", "Weird"] "Weird"
    (by decide)

/-- C10 (implicit): an objective containing none of the planner's trigger
substrings (`how many`, `count`, `companies`, `products`, `company`,
case-insensitively) and no uppercase entity token produces a `QueryPlan` with
an empty steps list, for every schema; the planner is total, so it returns
without raising. -/
theorem C10_no_trigger_empty_plan (objective : String) (schema : CSVSchemaInfo)
    (h1 : substrIn "how many" (pyLower objective) = false)
    (h2 : substrIn "count" (pyLower objective) = false)
    (h3 : substrIn "companies" (pyLower objective) = false)
    (h4 : substrIn "products" (pyLower objective) = false)
    (h5 : substrIn "company" (pyLower objective) = false)
    (h6 : uppercase_tokens objective = []) :
    (create_query_plan objective schema).steps = [] := by
  simp [create_query_plan, plan_step1, plan_step2, plan_step3, plan_step4,
    h1, h2, h3, h4, h5, h6]

/-- C10 witness: the concrete objective `"what is in this file?"` yields an
empty plan on a schema that does have a company column. -/
theorem C10_witness :
    (create_query_plan "what is in this file?"
      { columns := ["Company"], data_types := fun _ => "text",
        sample_values := fun _ => [], row_count := 1,
        key_columns := analyze_key_columns (fun _ => "text") ["Company"] }).steps = [] :=
  C10_no_trigger_empty_plan "what is in this file?" _
    (by decide) (by decide) (by decide) (by decide) (by decide) (by decide)

/-- C1 helper: each executed step's `success` flag records exactly whether the
relational engine raised on its query, and every plan step is executed. -/
theorem run_steps_success_map (exec : String → Except String (List Row))
    (fz : String → List String → ℚ → Option String) (cols : List String) :
    ∀ (i : Nat) (steps : List PlanStep),
      (run_steps exec fz cols i steps).1.map (fun sr => sr.success)
        = steps.map (fun st => match exec st.sql with | .ok _ => true | .error _ => false) := by
  intro i steps
  induction steps generalizing i with
  | nil => rfl
  | cons st rest ih =>
    simp only [run_steps, List.map_cons]
    rw [ih (i + 1)]
    rcases hx : exec st.sql <;> simp [run_step, hx]

/-- C1: after a successful setup (file downloaded, dataframe loaded), the
executor runs **every** step of the plan in order — the executed list records,
step by step, `success = false` exactly for the steps whose query raised and
`true` for the rest — and the returned report has `success = true` regardless
of step failures.  (With a plan of one failing and one valid step this gives
one `false`, one `true`, and an overall `success = true`.) -/
theorem C1_step_failure_never_aborts (file_id : String) (cols : List String)
    (exec : String → Except String (List Row))
    (fz : String → List String → ℚ → Option String) (plan : QueryPlan) :
    (execute_query_plan file_id true (.ok cols) exec fz plan).success = true
    ∧ (execute_query_plan file_id true (.ok cols) exec fz plan).steps_executed.map
        (fun sr => sr.success)
      = plan.steps.map
        (fun st => match exec st.sql with | .ok _ => true | .error _ => false) := by
  constructor
  · rfl
  · show (run_steps exec fz cols 0 plan.steps).1.map (fun sr => sr.success) = _
    exact run_steps_success_map exec fz cols 0 plan.steps

/-- C3: for an objective containing `how many companies` with a detectable
uppercase entity token `p`, and a schema with a company column and at least one
brand-name or generic-name column (so that the OR conditions are non-empty),
the generated plan contains the combined counting step — counting distinct
values of the first company column under the OR of the case-insensitive
containment conditions — and the companion listing step. -/
theorem C3_combined_count_and_list_steps (objective : String) (schema : CSVSchemaInfo)
    (p : String) (ps : List String) (mc : String) (mcs : List String)
    (hobj : substrIn "how many companies" (pyLower objective) = true)
    (htok : uppercase_tokens objective = p :: ps)
    (hcomp : schema.key_columns.company = mc :: mcs)
    (hw : where_conditions schema.columns p ≠ []) :
    (⟨"Count distinct companies that have registered " ++ p
        ++ " (checking multiple columns)",
      "SELECT COUNT(DISTINCT \"" ++ mc
        ++ "\") as company_count FROM current_csv_table WHERE "
        ++ String.intercalate " OR " (where_conditions schema.columns p),
      "Should return count of companies with " ++ p⟩ : PlanStep)
      ∈ (create_query_plan objective schema).steps
    ∧ (⟨"List companies that have registered " ++ p ++ " (from all relevant columns)",
      "SELECT DISTINCT \"" ++ mc
        ++ "\" as company_name FROM current_csv_table WHERE "
        ++ String.intercalate " OR " (where_conditions schema.columns p),
      "Should return names of companies with " ++ p⟩ : PlanStep)
      ∈ (create_query_plan objective schema).steps := by
  have h4 : plan_step4 (pyLower objective) objective schema =
      [⟨"Count distinct companies that have registered " ++ p
          ++ " (checking multiple columns)",
        "SELECT COUNT(DISTINCT \"" ++ mc
          ++ "\") as company_count FROM current_csv_table WHERE "
          ++ String.intercalate " OR " (where_conditions schema.columns p),
        "Should return count of companies with " ++ p⟩,
       ⟨"List companies that have registered " ++ p ++ " (from all relevant columns)",
        "SELECT DISTINCT \"" ++ mc
          ++ "\" as company_name FROM current_csv_table WHERE "
          ++ String.intercalate " OR " (where_conditions schema.columns p),
        "Should return names of companies with " ++ p⟩] := by
    rcases hwc : where_conditions schema.columns p with _ | ⟨a, as⟩
    · exact absurd hwc hw
    · unfold plan_step4
      rw [hobj, htok, hcomp]
      simp only [if_true, hwc]
  constructor
  · show _ ∈ plan_step1 (pyLower objective) ++ plan_step2 (pyLower objective) schema
      ++ plan_step3 objective schema ++ plan_step4 (pyLower objective) objective schema
    rw [h4]
    simp [List.mem_append]
  · show _ ∈ plan_step1 (pyLower objective) ++ plan_step2 (pyLower objective) schema
      ++ plan_step3 objective schema ++ plan_step4 (pyLower objective) objective schema
    rw [h4]
    simp [List.mem_append]

/-- C3 witness: the scenario of the specification — objective
`"How many companies have registered TIAROTEC?"` against a schema with
columns `Company`, `Brand Name`, `Generic Name` — produces both the combined
OR-across-columns counting step and the companion listing step. -/
theorem C3_witness :
    (⟨"Count distinct companies that have registered TIAROTEC (checking multiple columns)",
      "SELECT COUNT(DISTINCT \"Company\") as company_count FROM current_csv_table WHERE "
        ++ String.intercalate " OR "
            (where_conditions ["Company", "Brand Name", "Generic Name"] "TIAROTEC"),
      "Should return count of companies with TIAROTEC"⟩ : PlanStep)
      ∈ (create_query_plan "How many companies have registered TIAROTEC?"
          { columns := ["Company", "Brand Name", "Generic Name"],
            data_types := fun _ => "text", sample_values := fun _ => [],
            row_count := 3,
            key_columns := analyze_key_columns (fun _ => "text")
              ["Company", "Brand Name", "Generic Name"] }).steps
    ∧ (⟨"List companies that have registered TIAROTEC (from all relevant columns)",
      "SELECT DISTINCT \"Company\" as company_name FROM current_csv_table WHERE "
        ++ String.intercalate " OR "
            (where_conditions ["Company", "Brand Name", "Generic Name"] "TIAROTEC"),
      "Should return names of companies with TIAROTEC"⟩ : PlanStep)
      ∈ (create_query_plan "How many companies have registered TIAROTEC?"
          { columns := ["Company", "Brand Name", "Generic Name"],
            data_types := fun _ => "text", sample_values := fun _ => [],
            row_count := 3,
            key_columns := analyze_key_columns (fun _ => "text")
              ["Company", "Brand Name", "Generic Name"] }).steps :=
  C3_combined_count_and_list_steps
    "How many companies have registered TIAROTEC?" _ "TIAROTEC" [] "Company" []
    (by decide) (by decide) (by decide) (by decide)

/-- One word `"a "` contributes exactly one whitespace-delimited word. -/
theorem wcAux_word (l : List Char) : wcAux false ('a' :: ' ' :: l) = 1 + wcAux false l := by
  simp [wcAux, pyIsSpace]

/-- `mkWords n` has exactly `n` words. -/
theorem wc_mkWords (n : Nat) : wc (mkWords n) = n := by
  induction n with
  | zero => rfl
  | succ k ih =>
    show wcAux false (("a " ++ mkWords k).data) = k + 1
    rw [String.data_append]
    show wcAux false ('a' :: ' ' :: (mkWords k).data) = k + 1
    rw [wcAux_word]
    unfold wc at ih
    omega

/-- Token count of the `mkWords` family. -/
theorem count_tokens_mkWords (n : Nat) : count_tokens (mkWords n) = 13 * n := by
  show wc (mkWords n) * 13 = 13 * n
  rw [wc_mkWords]
  omega

/-- C8: a document whose extracted text counts at most 8000 tokens
(`80000` tenths) is returned unmodified by `read_pdf`'s processing stage, for
any focus query; and a larger document with no focus query skips the
relevance-filter stage entirely, going straight to chunking and per-chunk
summarization of the original text. -/
theorem C8_small_passthrough_large_skips_filter (file_id full_text : String)
    (query : Option String) :
    (count_tokens full_text ≤ 80000 →
      read_pdf_process file_id full_text query = full_text)
    ∧ (count_tokens full_text > 80000 →
      read_pdf_process file_id full_text none
        = chunk_and_summarize file_id (count_tokens full_text) full_text none) := by
  constructor
  · intro h
    unfold read_pdf_process
    rw [if_pos h]
  · intro h
    unfold read_pdf_process
    rw [if_neg (by omega)]
    rfl

/-- C8 witness: the concrete two-word text is returned unmodified, and the
concrete 6160-word text (8008 estimated tokens) goes straight to
chunk-and-summarize. -/
theorem C8_witness :
    count_tokens "tiny text" ≤ 80000
    ∧ read_pdf_process "doc.pdf" "tiny text" none = "tiny text"
    ∧ count_tokens bigDoc > 80000
    ∧ read_pdf_process "doc.pdf" bigDoc none
        = chunk_and_summarize "doc.pdf" (count_tokens bigDoc) bigDoc none := by
  have hbig : count_tokens bigDoc > 80000 := by
    show count_tokens (mkWords 6160) > 80000
    rw [count_tokens_mkWords]
    omega
  exact ⟨by decide,
    (C8_small_passthrough_large_skips_filter "doc.pdf" "tiny text" none).1 (by decide),
    hbig,
    (C8_small_passthrough_large_skips_filter "doc.pdf" bigDoc none).2 hbig⟩

/-- C6 (amended): with no query (or an empty one) `extract_relevant_sections`
returns the text unchanged; and when no section scores above zero (no sections
selected) it returns the first 8000 **characters** of the raw text
(`text[:8000]`) — not the first 8000 tokens' worth. -/
theorem C6_no_query_identity_and_char_fallback :
    (∀ text : String, extract_relevant_sections text none = text
      ∧ extract_relevant_sections text (some "") = text)
    ∧ (∀ text q : String, q ≠ "" → selected_sections text q = [] →
      extract_relevant_sections text (some q) = pySlice text 8000) := by
  constructor
  · intro text
    exact ⟨rfl, rfl⟩
  · intro text q hq hsel
    simp only [extract_relevant_sections, if_neg hq, hsel, List.isEmpty_nil, if_true]

/-- C6 witness: identity on a concrete text without a query, and the concrete
fallback slice when nothing is selected. -/
theorem C6_witness :
    extract_relevant_sections "abc" none = "abc"
    ∧ extract_relevant_sections "tiny" (some "zzzz") = pySlice "tiny" 8000 :=
  ⟨(C6_no_query_identity_and_char_fallback.1 "abc").1,
   C6_no_query_identity_and_char_fallback.2 "tiny" "zzzz" (by decide) (by decide)⟩

/-- A text with no newline is never split by the lookahead section scanner. -/
theorem reSplitLookGo_no_newline :
    ∀ (l : List Char) (fuel : Nat) (acc : List Char), (∀ c ∈ l, c ≠ '\n') →
      reSplitLookGo fuel acc l = [acc.reverse ++ l] := by
  intro l
  induction l with
  | nil =>
    intro fuel acc _
    cases fuel <;> simp [reSplitLookGo]
  | cons c cs ih =>
    intro fuel acc h
    cases fuel with
    | zero => rfl
    | succ fuel =>
      have hc : c ≠ '\n' := h c (List.mem_cons_self c cs)
      have hnone : lookMatchAfterNl c cs = none := by
        unfold lookMatchAfterNl
        rw [if_neg hc]
      rw [reSplitLookGo, hnone, ih fuel (c :: acc) (fun d hd => h d (List.mem_cons_of_mem c hd))]
      simp

/-- `pyLookSplit` of a newline-free text is the single whole text. -/
theorem pyLookSplit_no_newline (s : String) (h : ∀ c ∈ s.data, c ≠ '\n') :
    pyLookSplit s = [s] := by
  unfold pyLookSplit
  rw [reSplitLookGo_no_newline s.data (s.data.length + 1) [] h]
  rfl

/-- Stripping a run of a non-whitespace character is the identity. -/
theorem stripChars_replicate (n : Nat) (c : Char) (h : pyIsSpace c = false) :
    stripChars (List.replicate n c) = List.replicate n c := by
  have hdrop : ∀ m, (List.replicate m c).dropWhile pyIsSpace = List.replicate m c := by
    intro m
    cases m with
    | zero => rfl
    | succ k => simp [List.replicate_succ, List.dropWhile_cons, h]
  unfold stripChars
  rw [hdrop, List.reverse_replicate, hdrop, List.reverse_replicate]

/-- A word with a character different from `c0` is never a prefix of a
`c0`-run. -/
theorem isPrefixOf_replicate_ne (w : List Char) (c0 : Char)
    (hw : ∃ c ∈ w, c ≠ c0) : ∀ n, w.isPrefixOf (List.replicate n c0) = false := by
  induction w with
  | nil => simp at hw
  | cons c w' ih =>
    intro n
    cases n with
    | zero => rfl
    | succ k =>
      rw [List.replicate_succ]
      show (c == c0 && w'.isPrefixOf (List.replicate k c0)) = false
      by_cases hc : c = c0
      · subst hc
        have hw' : ∃ d ∈ w', d ≠ c := by
          obtain ⟨d, hd, hdc⟩ := hw
          rcases List.mem_cons.mp hd with rfl | hd'
          · exact absurd rfl hdc
          · exact ⟨d, hd', hdc⟩
        simp [ih hw' k]
      · simp [hc]

/-- A word with a character different from `c0` never occurs inside a
`c0`-run. -/
theorem listInfix_replicate_ne (w : List Char) (c0 : Char)
    (hw : ∃ c ∈ w, c ≠ c0) : ∀ n, listInfix w (List.replicate n c0) = false := by
  intro n
  induction n with
  | zero =>
    obtain ⟨c, hc, _⟩ := hw
    cases w with
    | nil => simp at hc
    | cons x xs => rfl
  | succ k ih =>
    rw [List.replicate_succ]
    show (w.isPrefixOf (c0 :: List.replicate k c0) || listInfix w (List.replicate k c0)) = false
    rw [show c0 :: List.replicate k c0 = List.replicate (k + 1) c0 from (List.replicate_succ c0 k).symm]
    rw [isPrefixOf_replicate_ne w c0 hw (k + 1), ih]
    rfl

/-- Starting inside a word, a run of a non-space character contributes no new
word. -/
theorem wcAux_true_replicate (c : Char) (h : pyIsSpace c = false) :
    ∀ m, wcAux true (List.replicate m c) = 0 := by
  intro m
  induction m with
  | zero => rfl
  | succ k ih => simp [List.replicate_succ, wcAux, h, ih]

/-- A non-space character starts exactly one word. -/
theorem wcAux_cons_nonspace (c : Char) (l : List Char) (h : pyIsSpace c = false) :
    wcAux false (c :: l) = 1 + wcAux true l := by
  simp [wcAux, h]

/-- Lowering an `'a'`-run is the identity. -/
theorem pyLower_repA (n : Nat) :
    pyLower (String.mk (List.replicate n 'a')) = String.mk (List.replicate n 'a') := by
  unfold pyLower
  rw [show (String.mk (List.replicate n 'a')).data = List.replicate n 'a' from rfl]
  rw [List.map_replicate]
  rfl

/-- No query or regulatory keyword scores inside an `'a'`-run: its relevance
score is zero. -/
theorem section_score_repA (n : Nat) :
    section_score "zzzz" (query_keywords "zzzz") (String.mk (List.replicate n 'a')) = 0 := by
  have hin : ∀ w : String, (∃ c ∈ w.data, c ≠ 'a') →
      substrIn w (pyLower (String.mk (List.replicate n 'a'))) = false := by
    intro w hw
    unfold substrIn
    rw [pyLower_repA]
    rw [show (String.mk (List.replicate n 'a')).data = List.replicate n 'a' from rfl]
    exact listInfix_replicate_ne w.data 'a' hw n
  have h1 : substrIn "zzzz" (pyLower (String.mk (List.replicate n 'a'))) = false :=
    hin "zzzz" ⟨'z', by decide, by decide⟩
  have h5 : substrIn (pyLower "zzzz") (pyLower (String.mk (List.replicate n 'a'))) = false := by
    rw [show pyLower "zzzz" = "zzzz" from rfl]
    exact h1
  have hf1 : List.filter (fun kw => substrIn kw (pyLower (String.mk (List.replicate n 'a'))))
      ["zzzz"] = [] := by
    simp [List.filter, h1]
  have hregs : List.filter (fun kw => substrIn kw (pyLower (String.mk (List.replicate n 'a'))))
      regulatory_keywords = [] := by
    apply List.filter_eq_nil_iff.mpr
    intro w hw
    have hx : ∃ c ∈ w.data, c ≠ 'a' := by
      fin_cases hw <;> first
        | exact ⟨'c', by decide, by decide⟩
        | exact ⟨'p', by decide, by decide⟩
        | exact ⟨'r', by decide, by decide⟩
        | exact ⟨'t', by decide, by decide⟩
        | exact ⟨'s', by decide, by decide⟩
        | exact ⟨'l', by decide, by decide⟩
        | exact ⟨'d', by decide, by decide⟩
    simp [hin w hx]
  have hkw : query_keywords "zzzz" = ["zzzz"] := by decide
  unfold section_score
  rw [hkw]
  show ((List.filter (fun kw => substrIn kw (pyLower (String.mk (List.replicate n 'a'))))
        ["zzzz"]).length
      + if substrIn (pyLower "zzzz") (pyLower (String.mk (List.replicate n 'a'))) = true
        then 5 else 0)
      + (List.filter (fun kw => substrIn kw (pyLower (String.mk (List.replicate n 'a'))))
        regulatory_keywords).length = 0
  rw [hf1, h5, hregs]
  rfl

/-- An `'a'`-run contains no newline. -/
theorem repA_no_newline (n : Nat) :
    ∀ c ∈ (String.mk (List.replicate n 'a')).data, c ≠ '\n' := by
  intro c hc
  have hca : c = 'a' :=
    List.eq_of_mem_replicate (show c ∈ List.replicate n 'a' from hc)
  rw [hca]
  decide

/-- Stripping an `'a'`-run is the identity. -/
theorem pyStrip_repA (n : Nat) :
    pyStrip (String.mk (List.replicate n 'a')) = String.mk (List.replicate n 'a') := by
  unfold pyStrip
  rw [show (String.mk (List.replicate n 'a')).data = List.replicate n 'a' from rfl]
  rw [stripChars_replicate n 'a' (by decide)]

/-- The length of an `'a'`-run. -/
theorem repA_length (n : Nat) : (String.mk (List.replicate n 'a')).length = n := by
  show (String.mk (List.replicate n 'a')).data.length = n
  rw [show (String.mk (List.replicate n 'a')).data = List.replicate n 'a' from rfl]
  exact List.length_replicate n 'a'

/-- The relevance filter scores no section of a long `'a'`-run positively. -/
theorem scored_sections_repA (n : Nat) (h50 : 50 ≤ n) :
    scored_sections (String.mk (List.replicate n 'a')) "zzzz" = [] := by
  unfold scored_sections
  rw [pyLookSplit_no_newline (String.mk (List.replicate n 'a')) (repA_no_newline n)]
  show List.filterMap _ [String.mk (List.replicate n 'a')] = []
  rw [List.filterMap_cons]
  have hbody : (if (pyStrip (String.mk (List.replicate n 'a'))).length < 50
        then (none : Option (Nat × String))
      else
        let sc := section_score "zzzz" (query_keywords "zzzz")
          (String.mk (List.replicate n 'a'))
        if sc > 0 then some (sc, String.mk (List.replicate n 'a')) else none) = none := by
    rw [pyStrip_repA, repA_length]
    rw [if_neg (by omega)]
    show (if section_score "zzzz" (query_keywords "zzzz")
          (String.mk (List.replicate n 'a')) > 0 then
        some (section_score "zzzz" (query_keywords "zzzz")
          (String.mk (List.replicate n 'a')), String.mk (List.replicate n 'a'))
      else none) = none
    rw [section_score_repA]
    rfl
  rw [hbody]
  rfl

/-- The relevance-filter fallback on a long `'a'`-run with a non-matching
query, stated for every length `n > 8000`: the result is the 8000-character
slice, a strict prefix of the text, although the whole text is a single word
(1.3 estimated tokens, far below the 8000-token budget). -/
theorem C6_general (n : Nat) (hn : 8000 < n) :
    extract_relevant_sections (String.mk (List.replicate n 'a')) (some "zzzz")
      = pySlice (String.mk (List.replicate n 'a')) 8000
    ∧ extract_relevant_sections (String.mk (List.replicate n 'a')) (some "zzzz")
      ≠ String.mk (List.replicate n 'a')
    ∧ count_tokens (String.mk (List.replicate n 'a')) ≤ 80000 := by
  have hsel : selected_sections (String.mk (List.replicate n 'a')) "zzzz" = [] := by
    unfold selected_sections
    rw [scored_sections_repA n (by omega)]
    rfl
  have h1 : extract_relevant_sections (String.mk (List.replicate n 'a')) (some "zzzz")
      = pySlice (String.mk (List.replicate n 'a')) 8000 := by
    simp only [extract_relevant_sections,
      if_neg (show ("zzzz" : String) ≠ "" from by decide),
      hsel, List.isEmpty_nil, if_true]
  refine ⟨h1, ?_, ?_⟩
  · rw [h1]
    intro h
    have hlen := congrArg (fun s : String => s.data.length) h
    simp only [pySlice] at hlen
    rw [List.length_take, List.length_replicate] at hlen
    omega
  · show wc (String.mk (List.replicate n 'a')) * 13 ≤ 80000
    obtain ⟨m, rfl⟩ : ∃ m, n = m + 1 := ⟨n - 1, by omega⟩
    have hw : wc (String.mk (List.replicate (m + 1) 'a')) = 1 := by
      show wcAux false (String.mk (List.replicate (m + 1) 'a')).data = 1
      rw [show (String.mk (List.replicate (m + 1) 'a')).data
          = List.replicate (m + 1) 'a' from rfl]
      rw [List.replicate_succ]
      rw [wcAux_cons_nonspace 'a' _ (by decide)]
      rw [wcAux_true_replicate 'a' (by decide) m]
    rw [hw]
    omega

/-- C6 counterexample: the concrete 8005-character instance of `C6_general` —
with the query `"zzzz"` on `bigA` no section is selected, and the fallback
returns the first 8000 **characters**, a strict prefix of the text, although
the whole text is only 1.3 tokens, so "the first 8000 tokens' worth of the raw
text" would be the entire text.  The claim's token-based description of the
fallback is false: the slice is character-based. -/
theorem C6_counterexample :
    extract_relevant_sections bigA (some "zzzz") = pySlice bigA 8000
    ∧ extract_relevant_sections bigA (some "zzzz") ≠ bigA
    ∧ count_tokens bigA ≤ 80000 :=
  C6_general 8005 (by omega)

/-- C4 counterexample: on a text containing a `FORM` section header, the
chunker's consuming section split deletes the matched header text
(`"FORM AB"`), so the concatenation of the produced chunks does not reproduce
the original text's content: `FORM` occurs in the input but in no chunk. -/
theorem C4_counterexample :
    chunk_text_intelligently "Start here.\nFORM AB\nEnd bit." 3000 200
      = ["Start here.\n\nEnd bit."]
    ∧ substrIn "FORM" "Start here.\nFORM AB\nEnd bit." = true
    ∧ substrIn "FORM" "Start here.\n\nEnd bit." = false := by
  refine ⟨?_, by decide, by decide⟩
  set_option maxRecDepth 4000 in decide

/-- Starting inside a word never counts more words than starting outside. -/
theorem wcAux_true_le (l : List Char) : wcAux true l ≤ wcAux false l := by
  induction l with
  | nil => exact Nat.le_refl 0
  | cons c cs ih =>
    by_cases h : pyIsSpace c = true
    · simp [wcAux, h]
    · simp only [wcAux, h]
      simp only [Bool.false_eq_true, if_false, if_true]
      omega

/-- Word counting is subadditive over concatenation. -/
theorem wcAux_append_le (x : List Char) : ∀ (y : List Char) (b : Bool),
    wcAux b (x ++ y) ≤ wcAux b x + wcAux false y := by
  induction x with
  | nil =>
    intro y b
    cases b with
    | false => simp
    | true =>
      show wcAux true ([] ++ y) ≤ wcAux true [] + wcAux false y
      rw [List.nil_append, show wcAux true ([] : List Char) = 0 from rfl, Nat.zero_add]
      exact wcAux_true_le y
  | cons c cs ih =>
    intro y b
    by_cases h : pyIsSpace c = true
    · simpa [wcAux, h] using ih y false
    · simp only [List.cons_append, wcAux, h, Bool.false_eq_true, if_false]
      have := ih y true
      cases b <;> simp <;> omega

/-- Consuming whitespace resets the automaton to the outside-word state. -/
theorem wcAux_ws_append (sep : List Char) (hne : sep ≠ [])
    (hws : ∀ c ∈ sep, pyIsSpace c = true) :
    ∀ (y : List Char) (b : Bool), wcAux b (sep ++ y) = wcAux false y := by
  induction sep with
  | nil => exact absurd rfl hne
  | cons c cs ih =>
    intro y b
    have hc : pyIsSpace c = true := hws c (List.mem_cons_self c cs)
    cases cs with
    | nil => simp [wcAux, hc]
    | cons d ds =>
      have ih' := ih (List.cons_ne_nil d ds)
        (fun e he => hws e (List.mem_cons_of_mem c he)) y false
      simp only [List.cons_append, wcAux, hc, if_true]
      exact ih'

/-- Trailing whitespace does not change the word count. -/
theorem wcAux_append_ws (ws : List Char) (hws : ∀ c ∈ ws, pyIsSpace c = true) :
    ∀ (x : List Char) (b : Bool), wcAux b (x ++ ws) = wcAux b x := by
  have hzero : ∀ (l : List Char), (∀ c ∈ l, pyIsSpace c = true) → ∀ b, wcAux b l = 0 := by
    intro l
    induction l with
    | nil => intro _ b; rfl
    | cons c cs ih =>
      intro h b
      have hc := h c (List.mem_cons_self c cs)
      simp only [wcAux, hc, if_true]
      exact ih (fun d hd => h d (List.mem_cons_of_mem c hd)) false
  intro x
  induction x with
  | nil =>
    intro b
    simpa using hzero ws hws b
  | cons c cs ih =>
    intro b
    by_cases h : pyIsSpace c = true
    · simp [wcAux, h, ih]
    · simp [wcAux, h, ih]

/-- Leading whitespace does not change the word count (outside-word state). -/
theorem wcAux_dropWhile_ws (l : List Char) :
    wcAux false (l.dropWhile pyIsSpace) = wcAux false l := by
  induction l with
  | nil => rfl
  | cons c cs ih =>
    by_cases h : pyIsSpace c = true
    · simpa [List.dropWhile_cons, h, wcAux] using ih
    · simp [List.dropWhile_cons, h]

/-- Stripping surrounding whitespace preserves the word count. -/
theorem wcAux_stripChars (l : List Char) :
    wcAux false (stripChars l) = wcAux false l := by
  unfold stripChars
  rw [← wcAux_dropWhile_ws l]
  set m := l.dropWhile pyIsSpace with hm
  have hdec : m = (m.reverse.dropWhile pyIsSpace).reverse
      ++ (m.reverse.takeWhile pyIsSpace).reverse := by
    have h1 : m.reverse.takeWhile pyIsSpace ++ m.reverse.dropWhile pyIsSpace = m.reverse :=
      List.takeWhile_append_dropWhile pyIsSpace m.reverse
    have h2 := congrArg List.reverse h1
    rw [List.reverse_append, List.reverse_reverse] at h2
    exact h2.symm
  conv_rhs => rw [hdec]
  rw [wcAux_append_ws]
  intro c hc
  rw [List.mem_reverse] at hc
  exact List.mem_takeWhile_imp hc

/-- `count_tokens` of the stripped string. -/
theorem count_tokens_pyStrip (s : String) : count_tokens (pyStrip s) = count_tokens s := by
  show wc (pyStrip s) * 13 = wc s * 13
  have : wc (pyStrip s) = wc s := by
    show wcAux false (pyStrip s).data = wcAux false s.data
    rw [show (pyStrip s).data = stripChars s.data from rfl]
    exact wcAux_stripChars s.data
  rw [this]

/-- `count_tokens` of the empty string. -/
theorem count_tokens_empty : count_tokens "" = 0 := rfl

/-- `count_tokens` is subadditive over whitespace-separator joins. -/
theorem count_tokens_append_sep (cur u sep : String) (hne : sep.data ≠ [])
    (hws : ∀ c ∈ sep.data, pyIsSpace c = true) :
    count_tokens (cur ++ sep ++ u) ≤ count_tokens cur + count_tokens u := by
  show wc (cur ++ sep ++ u) * 13 ≤ wc cur * 13 + wc u * 13
  have h1 : wc (cur ++ sep ++ u) ≤ wc cur + wc u := by
    show wcAux false (cur ++ sep ++ u).data ≤ wcAux false cur.data + wcAux false u.data
    rw [String.data_append, String.data_append]
    rw [List.append_assoc]
    calc wcAux false (cur.data ++ (sep.data ++ u.data))
        ≤ wcAux false cur.data + wcAux false (sep.data ++ u.data) :=
          wcAux_append_le cur.data (sep.data ++ u.data) false
      _ = wcAux false cur.data + wcAux false u.data := by
          rw [wcAux_ws_append sep.data hne hws u.data false]
  omega

/-- `count_tokens` of the chunker's accumulate operation. -/
theorem count_tokens_appendUnit (sep cur u : String) (hne : sep.data ≠ [])
    (hws : ∀ c ∈ sep.data, pyIsSpace c = true) :
    count_tokens (appendUnit sep cur u) ≤ count_tokens cur + count_tokens u := by
  unfold appendUnit
  by_cases h : cur = ""
  · rw [if_pos h, h, count_tokens_empty]
    omega
  · rw [if_neg h]
    exact count_tokens_append_sep cur u sep hne hws



/-- A character list with no internal sentence-split point (tracked through
the previous character `prev`) is returned whole by the sentence scanner. -/
theorem sentGo_single (l : List Char) : ∀ (prev : Char) (acc : List Char),
    List.Chain' NoM (prev :: l) → sentGo false prev acc l = [acc.reverse ++ l] := by
  induction l with
  | nil =>
    intro prev acc _
    simp [sentGo]
  | cons c cs ih =>
    intro prev acc h
    have hpc : NoM prev c := (List.chain'_cons.mp h).1
    have hcond : (pyIsSpace c && isSentPunct prev) = false := by
      rcases hsp : pyIsSpace c <;> rcases hp : isSentPunct prev <;> simp_all [NoM]
    rw [show sentGo false prev acc (c :: cs)
        = if pyIsSpace c && isSentPunct prev then acc.reverse :: sentGo true ' ' [] cs
          else sentGo false c (c :: acc) cs from rfl]
    rw [hcond]
    simp only [Bool.false_eq_true, if_false]
    rw [ih c (c :: acc) (List.chain'_cons.mp h).2]
    simp

/-- The guard of the sentence scanner being false yields a non-split pair. -/
theorem NoM_of_guard_false {prev c : Char}
    (h : (pyIsSpace c && isSentPunct prev) = false) : NoM prev c := by
  intro hand
  rw [hand.1, hand.2] at h
  simp at h

/-- Every piece the sentence scanner emits is free of internal split points. -/
theorem sentGo_pieces (l : List Char) : ∀ (skipping : Bool) (prev : Char) (acc : List Char),
    (skipping = true → acc = []) → (acc = [] ∨ acc.head? = some prev) →
    List.Chain' NoM acc.reverse →
    ∀ p ∈ sentGo skipping prev acc l, List.Chain' NoM p := by
  induction l with
  | nil =>
    intro skipping prev acc _ _ hc p hp
    have hp' : p = acc.reverse := by
      cases skipping <;> simpa [sentGo] using hp
    rw [hp']
    exact hc
  | cons c cs ih =>
    intro skipping prev acc hsk hh hc p hp
    cases skipping with
    | false =>
      rw [show sentGo false prev acc (c :: cs)
          = if pyIsSpace c && isSentPunct prev then acc.reverse :: sentGo true ' ' [] cs
            else sentGo false c (c :: acc) cs from rfl] at hp
      by_cases hcond : (pyIsSpace c && isSentPunct prev) = true
      · rw [hcond, if_pos rfl] at hp
        rcases List.mem_cons.mp hp with rfl | hp'
        · exact hc
        · exact ih true ' ' [] (fun _ => rfl) (Or.inl rfl) (by simp) p hp'
      · rw [Bool.not_eq_true] at hcond
        rw [hcond] at hp
        simp only [Bool.false_eq_true, if_false] at hp
        refine ih false c (c :: acc) (by simp) (Or.inr rfl) ?_ p hp
        rw [show (c :: acc).reverse = acc.reverse ++ [c] from by simp]
        rw [List.chain'_append]
        refine ⟨hc, List.chain'_singleton c, ?_⟩
        intro x hx y hy
        simp only [List.head?_cons, Option.mem_def, Option.some.injEq] at hy
        subst hy
        have hx' : x = prev := by
          rcases hh with rfl | hh
          · simp at hx
          · rw [List.getLast?_reverse, hh] at hx
            simp only [Option.mem_def, Option.some.injEq] at hx
            exact hx.symm
        rw [hx']
        exact NoM_of_guard_false hcond
    | true =>
      have hacc : acc = [] := hsk rfl
      subst hacc
      rw [show sentGo true prev [] (c :: cs)
          = if pyIsSpace c then sentGo true ' ' [] cs else sentGo false c [c] cs from rfl] at hp
      by_cases hsp : pyIsSpace c = true
      · rw [if_pos hsp] at hp
        exact ih true ' ' [] (fun _ => rfl) (Or.inl rfl) (by simp) p hp
      · rw [if_neg hsp] at hp
        exact ih false c [c] (by simp) (Or.inr rfl) (List.chain'_singleton c) p hp

/-- The stripped list is an infix of the original. -/
theorem stripChars_segment (l : List Char) : stripChars l <:+: l := by
  unfold stripChars
  have h1 : l.dropWhile pyIsSpace <:+ l := List.dropWhile_suffix pyIsSpace
  have h2 : ((l.dropWhile pyIsSpace).reverse.dropWhile pyIsSpace).reverse
      <+: l.dropWhile pyIsSpace := by
    have h2' : ((l.dropWhile pyIsSpace).reverse.dropWhile pyIsSpace).reverse
        <+: (l.dropWhile pyIsSpace).reverse.reverse :=
      List.reverse_prefix.mpr (List.dropWhile_suffix pyIsSpace)
    rwa [List.reverse_reverse] at h2'
  exact h2.isInfix.trans h1.isInfix

/-- A piece of the sentence split, after stripping, splits into itself alone:
its interior has no split point, stripping cannot create one, and a piece
never starts with a split-triggering pair. -/
theorem pySentSplit_strip_piece (para s : String) (hs : s ∈ pySentSplit para) :
    pySentSplit (pyStrip s) = [pyStrip s] := by
  unfold pySentSplit at hs
  rw [List.mem_map] at hs
  obtain ⟨p, hp, rfl⟩ := hs
  have hchain : List.Chain' NoM p :=
    sentGo_pieces para.data false ' ' [] (by simp) (Or.inl rfl) (by simp) p hp
  have hchain' : List.Chain' NoM (stripChars p) :=
    hchain.infix (stripChars_segment p)
  have hcons : List.Chain' NoM (' ' :: stripChars p) := by
    rw [List.chain'_cons']
    refine ⟨?_, hchain'⟩
    intro y _
    intro hand
    exact absurd hand.1 (by decide)
  show pySentSplit (String.mk (stripChars (String.mk p).data)) = _
  unfold pySentSplit
  rw [show (String.mk (stripChars (String.mk p).data)).data
      = stripChars p from rfl]
  rw [sentGo_single (stripChars p) ' ' [] hcons]
  rfl

/-- Sealing the current chunk preserves the chunk property: the sealed text is
the stripped accumulation, whose token count is bounded by the tracked total,
or a single oversized sentence. -/
theorem sealChunks_ok {maxTok : Nat} {st : ChunkSt} (h : ChunkInv maxTok st) :
    ∀ c ∈ sealChunks st, count_tokens c ≤ 10 * maxTok ∨ pySentSplit c = [c] := by
  intro c hc
  unfold sealChunks at hc
  by_cases hcur : pyStrip st.cur = ""
  · rw [if_pos hcur] at hc
    exact h.1 c hc
  · rw [if_neg hcur] at hc
    rcases List.mem_append.mp hc with hold | hnew
    · exact h.1 c hold
    · have hc' : c = pyStrip st.cur := by simpa using hnew
      subst hc'
      rcases h.2.2 with hle | huns
      · left
        calc count_tokens (pyStrip st.cur)
            = count_tokens st.cur := count_tokens_pyStrip st.cur
          _ ≤ st.curTok := h.2.1
          _ ≤ 10 * maxTok := hle
      · right
        exact huns

/-- A state with an empty current chunk satisfies the invariant whenever its
sealed chunks do. -/
theorem chunkInv_reset {maxTok : Nat} {chunks : List String}
    (h : ∀ c ∈ chunks, count_tokens c ≤ 10 * maxTok ∨ pySentSplit c = [c]) :
    ChunkInv maxTok ⟨chunks, "", 0⟩ :=
  ⟨h, show count_tokens "" ≤ 0 from by rw [count_tokens_empty],
   Or.inr (show pySentSplit (pyStrip "") = [pyStrip ""] from by decide)⟩

/-- The sentence-level step preserves the invariant (its unit is a sentence
piece, which stripping keeps unsplittable). -/
theorem sentStep_inv {maxTok : Nat} {st : ChunkSt} {s : String}
    (h : ChunkInv maxTok st) (hs : pySentSplit (pyStrip s) = [pyStrip s]) :
    ChunkInv maxTok (sentStep maxTok st s) := by
  simp only [sentStep]
  split
  · next hfit =>
    refine ⟨h.1, ?_, Or.inl hfit⟩
    calc count_tokens (appendUnit " " st.cur s)
        ≤ count_tokens st.cur + count_tokens s :=
          count_tokens_appendUnit " " st.cur s (by decide) (by decide)
      _ ≤ st.curTok + count_tokens s := Nat.add_le_add_right h.2.1 _
  · next hfit =>
    exact ⟨sealChunks_ok h, Nat.le_refl _, Or.inr hs⟩

/-- Folding the sentence step over sentence pieces preserves the invariant. -/
theorem sentFold_inv {maxTok : Nat} : ∀ (l : List String),
    (∀ s ∈ l, pySentSplit (pyStrip s) = [pyStrip s]) →
    ∀ st : ChunkSt, ChunkInv maxTok st → ChunkInv maxTok (l.foldl (sentStep maxTok) st) := by
  intro l
  induction l with
  | nil =>
    intro _ st h
    exact h
  | cons s rest ih =>
    intro hl st h
    simp only [List.foldl_cons]
    exact ih (fun x hx => hl x (List.mem_cons_of_mem s hx)) _
      (sentStep_inv h (hl s (List.mem_cons_self s rest)))

/-- The paragraph-level step preserves the invariant. -/
theorem paraStep_inv {maxTok : Nat} {st : ChunkSt} (para : String)
    (h : ChunkInv maxTok st) : ChunkInv maxTok (paraStep maxTok st para) := by
  simp only [paraStep]
  split
  · next hfit =>
    refine ⟨h.1, ?_, Or.inl hfit⟩
    calc count_tokens (appendUnit "\n\n" st.cur para)
        ≤ count_tokens st.cur + count_tokens para :=
          count_tokens_appendUnit "\n\n" st.cur para (by decide) (by decide)
      _ ≤ st.curTok + count_tokens para := Nat.add_le_add_right h.2.1 _
  · next hfit =>
    split
    · next hbig =>
      exact sentFold_inv (pySentSplit para)
        (fun s hs => pySentSplit_strip_piece para s hs) _
        (chunkInv_reset (sealChunks_ok h))
    · next hsmall =>
      exact ⟨sealChunks_ok h, Nat.le_refl _,
        Or.inl (show count_tokens para ≤ 10 * maxTok by omega)⟩

/-- Folding the paragraph step preserves the invariant. -/
theorem paraFold_inv {maxTok : Nat} : ∀ (l : List String), ∀ st : ChunkSt,
    ChunkInv maxTok st → ChunkInv maxTok (l.foldl (paraStep maxTok) st) := by
  intro l
  induction l with
  | nil =>
    intro st h
    exact h
  | cons p rest ih =>
    intro st h
    simp only [List.foldl_cons]
    exact ih _ (paraStep_inv p h)

/-- The section-level step preserves the invariant. -/
theorem sectStep_inv {maxTok : Nat} {st : ChunkSt} (sec : String)
    (h : ChunkInv maxTok st) : ChunkInv maxTok (sectStep maxTok st sec) := by
  simp only [sectStep]
  split
  · exact h
  · split
    · next hfit =>
      refine ⟨h.1, ?_, Or.inl hfit⟩
      calc count_tokens (appendUnit "\n\n" st.cur (pyStrip sec))
          ≤ count_tokens st.cur + count_tokens (pyStrip sec) :=
            count_tokens_appendUnit "\n\n" st.cur (pyStrip sec) (by decide) (by decide)
        _ ≤ st.curTok + count_tokens (pyStrip sec) := Nat.add_le_add_right h.2.1 _
    · next hfit =>
      split
      · next hbig =>
        exact paraFold_inv (pySplitOn (pyStrip sec) "\n\n") _
          (chunkInv_reset (sealChunks_ok h))
      · next hsmall =>
        exact ⟨sealChunks_ok h, Nat.le_refl _,
          Or.inl (show count_tokens (pyStrip sec) ≤ 10 * maxTok by omega)⟩

/-- Folding the section step preserves the invariant. -/
theorem sectFold_inv {maxTok : Nat} : ∀ (l : List String), ∀ st : ChunkSt,
    ChunkInv maxTok st → ChunkInv maxTok (l.foldl (sectStep maxTok) st) := by
  intro l
  induction l with
  | nil =>
    intro st h
    exact h
  | cons s rest ih =>
    intro st h
    simp only [List.foldl_cons]
    exact ih _ (sectStep_inv s h)

/-- C4 (amended): `chunk_text_intelligently` is a pure (hence deterministic,
restartable) function producing chunks in source order, and no chunk's token
count exceeds `max_chunk_tokens` (`10 *` in tenths) except when the chunk is a
single indivisible sentence (one the sentence splitter cannot divide further).
The content-reproduction part of the original claim is refuted by
`C4_counterexample`: the consuming section split deletes matched headers. -/
theorem C4_chunk_token_bound (text : String) (maxTok ov : Nat) :
    ∀ c ∈ chunk_text_intelligently text maxTok ov,
      count_tokens c ≤ 10 * maxTok ∨ pySentSplit c = [c] := by
  intro c hc
  unfold chunk_text_intelligently at hc
  refine sealChunks_ok (sectFold_inv (pySectionSplit text) ⟨[], "", 0⟩
    (chunkInv_reset ?_)) c hc
  intro x hx
  simp at hx

/-- C4 witness: the concrete one-sentence text is its own chunk and satisfies
the token bound. -/
theorem C4_witness :
    "Hi there friend." ∈ chunk_text_intelligently "Hi there friend." 3000 200
    ∧ (count_tokens "Hi there friend." ≤ 10 * 3000
      ∨ pySentSplit "Hi there friend." = ["Hi there friend."]) :=
  ⟨by decide,
   C4_chunk_token_bound "Hi there friend." 3000 200 "Hi there friend." (by decide)⟩

/-- C1 witness: a concrete two-step plan whose first query raises and whose
second succeeds yields one failed and one successful step and an overall
`success = true`. -/
theorem C1_witness :
    (execute_query_plan "data.csv" true (.ok ["Company"])
      (fun sql => if sql = "BAD" then .error "boom" else .ok [[("a", .str "v")]])
      (fun _ _ _ => none)
      ⟨"obj", [⟨"s1", "BAD", "hint"⟩, ⟨"s2", "GOOD", "hint"⟩],
        "general_information"⟩).success = true
    ∧ (execute_query_plan "data.csv" true (.ok ["Company"])
      (fun sql => if sql = "BAD" then .error "boom" else .ok [[("a", .str "v")]])
      (fun _ _ _ => none)
      ⟨"obj", [⟨"s1", "BAD", "hint"⟩, ⟨"s2", "GOOD", "hint"⟩],
        "general_information"⟩).steps_executed.map (fun sr => sr.success)
      = [false, true] := by
  have h := C1_step_failure_never_aborts "data.csv" ["Company"]
    (fun sql => if sql = "BAD" then .error "boom" else .ok [[("a", .str "v")]])
    (fun _ _ _ => none)
    ⟨"obj", [⟨"s1", "BAD", "hint"⟩, ⟨"s2", "GOOD", "hint"⟩], "general_information"⟩
  refine ⟨h.1, ?_⟩
  rw [h.2]
  decide
